import Mathlib

/-!
Verification of the VirtualQ metadata-driven ticket lifecycle engine.

The repository (mcgsoftware/virtualq-go) ships a PostgreSQL schema
(`database/schema.sql`, `database/example-data.sql`) together with design
documents that fix the data model, the `fsm_schema` state-machine format
(jakesgordon javascript-state-machine style: `init`, `states`,
`transitions: [{name, from, to}]`), and the contracts of the lifecycle
operations.  The executable engine itself (Transition Engine, Schema
Registry, Ticket Lifecycle Manager, Audit Recorder, Queue Membership
Index) is not part of the repository sources; where a definition below
embeds such a missing component it is marked `Modelled from the spec:`
and follows the specification's wording.  Definitions that embed actual
repository code (the `v_monitor_tickets` view, the `uuid_generate_v4`
extid default) are translated from `database/schema.sql` directly.
-/

namespace VirtualQ

/-- One named transition of an `fsm_schema` state machine.  Source JSON keys
are `name`, `from`, `to` (`from`/`to` are Lean keywords, hence the
underscores). -/
structure Transition where
  name : String
  from_ : String
  to_ : String
deriving Repr, DecidableEq

/-- The `fsm_schema` JSONB document stored on `TypeDefinition`
(schema.sql line 71, format documented in the database design document):
an initial state, a finite state set, and a finite transition list. -/
structure FsmSchema where
  init : String
  states : List String
  transitions : List Transition
deriving Repr, DecidableEq

/-- Errors of the Transition Engine (spec section 4.2 / section 7):
`unknownTransition` when the requested name is not declared anywhere in the
type's state machine, `invalidTransition` when it is declared but not legal
from the current state; the latter carries the names of the transitions that
are legal from the current state. -/
inductive TransitionError where
  | unknownTransition
  | invalidTransition (validAlternatives : List String)
deriving Repr, DecidableEq

/-- Modelled from the spec: the set of transition names whose declared
"from" state equals the current state (the "valid next steps" included in
an `invalidTransition` error). -/
def validTransitionsFrom (fsm : FsmSchema) (currentState : String) : List String :=
  (fsm.transitions.filter (fun tr => tr.from_ == currentState)).map Transition.name

/-- Modelled from the spec: the Transition Engine's pure function
`apply(typeDefinition, currentState, transitionName)` (spec section 4.2),
which is not present in the repository sources.  Look the transition up by
name and current state; if no transition of that name exists at all, fail
with `unknownTransition`; if the name exists but none of its declarations
depart from the current state, fail with `invalidTransition` carrying the
valid alternatives; otherwise return the matched transition's "to" state. -/
def FsmSchema.apply (fsm : FsmSchema) (currentState transitionName : String) :
    Except TransitionError String :=
  match fsm.transitions.find? (fun tr => tr.name == transitionName && tr.from_ == currentState) with
  | some tr => Except.ok tr.to_
  | none =>
      if fsm.transitions.any (fun tr => tr.name == transitionName) then
        Except.error (TransitionError.invalidTransition (validTransitionsFrom fsm currentState))
      else
        Except.error TransitionError.unknownTransition

/-- Boolean duplicate-freedom check for a list of names. -/
def allDistinct : List String → Bool
  | [] => true
  | x :: xs => (!xs.contains x) && allDistinct xs

/-- Modelled from the spec: configuration-time validity of a state machine
(spec section 3 invariants for Type Definition, enforced at creation per
section 4.2): the initial state is a member of the declared state set, every
transition's "from" and "to" states are members of that set, and transition
names are unique within the definition. -/
def validFsm (fsm : FsmSchema) : Bool :=
  fsm.states.contains fsm.init &&
  fsm.transitions.all (fun tr => fsm.states.contains tr.from_ && fsm.states.contains tr.to_) &&
  allDistinct (fsm.transitions.map Transition.name)

theorem allDistinct_iff_nodup (l : List String) : allDistinct l = true ↔ l.Nodup := by
  induction l with
  | nil => simp [allDistinct]
  | cons x xs ih =>
      simp [allDistinct, ih, List.nodup_cons, List.contains_iff_exists_mem_beq]

theorem mem_validTransitionsFrom (fsm : FsmSchema) (cur s : String) :
    s ∈ validTransitionsFrom fsm cur ↔
      ∃ tr ∈ fsm.transitions, tr.name = s ∧ tr.from_ = cur := by
  simp only [validTransitionsFrom, List.mem_map, List.mem_filter, beq_iff_eq]
  constructor
  · rintro ⟨tr, ⟨hmem, hfrom⟩, hname⟩
    exact ⟨tr, hmem, hname, hfrom⟩
  · rintro ⟨tr, hmem, hname, hfrom⟩
    exact ⟨tr, ⟨hmem, hfrom⟩, hname⟩

/-- Helper: `find?` returns the designated element when it is the unique
element satisfying the predicate. -/
theorem find?_eq_of_unique {α : Type} (p : α → Bool) (l : List α) (a : α)
    (hmem : a ∈ l) (hp : p a = true) (huniq : ∀ x ∈ l, p x = true → x = a) :
    l.find? p = some a := by
  induction l with
  | nil => cases hmem
  | cons y ys ih =>
      by_cases hy : p y = true
      · have : y = a := huniq y (List.mem_cons_self y ys) hy
        subst this
        simp [List.find?, hy]
      · have hya : y ≠ a := fun h => hy (h ▸ hp)
        have hmem' : a ∈ ys := by
          cases hmem with
          | head => exact absurd rfl hya
          | tail _ h => exact h
        rw [List.find?]
        rw [Bool.eq_false_iff.mpr hy]
        exact ih hmem' (fun x hx hpx => huniq x (List.mem_cons_of_mem y hx) hpx)

/-- The concrete state machine of the spec's section 8 example:
states `{A, B, C}` with transitions `t1 : A → B` and `t2 : B → C`. -/
def exampleFsm : FsmSchema :=
  { init := "A"
    states := ["A", "B", "C"]
    transitions := [⟨"t1", "A", "B"⟩, ⟨"t2", "B", "C"⟩] }

/-- C1: for every type definition (with configuration-valid unique transition
names), current state, and requested transition name, the Transition Engine's
`apply` returns the named transition's "to" state when a transition of that
name exists with "from" equal to the current state; fails with
`unknownTransition` when no transition of that name exists anywhere; and fails
with `invalidTransition` carrying exactly the transition names departing from
the current state when the name exists but its "from" state differs.  In
particular for `t1 : A → B`, `t2 : B → C`, attempting `t1` in state `C` fails
with `invalidTransition`, not `unknownTransition`. -/
theorem transitionEngine_apply_spec (fsm : FsmSchema) (cur name : String)
    (hnodup : allDistinct (fsm.transitions.map Transition.name) = true) :
    (∀ tr ∈ fsm.transitions, tr.name = name → tr.from_ = cur →
        fsm.apply cur name = Except.ok tr.to_) ∧
    ((∀ tr ∈ fsm.transitions, tr.name ≠ name) →
        fsm.apply cur name = Except.error TransitionError.unknownTransition) ∧
    ((∃ tr ∈ fsm.transitions, tr.name = name) →
      (∀ tr ∈ fsm.transitions, tr.name = name → tr.from_ ≠ cur) →
        fsm.apply cur name =
          Except.error (TransitionError.invalidTransition (validTransitionsFrom fsm cur))) ∧
    (∀ s, s ∈ validTransitionsFrom fsm cur ↔
        ∃ tr ∈ fsm.transitions, tr.name = s ∧ tr.from_ = cur) ∧
    exampleFsm.apply "C" "t1" =
      Except.error (TransitionError.invalidTransition (validTransitionsFrom exampleFsm "C")) := by
  have hnd : (fsm.transitions.map Transition.name).Nodup :=
    (allDistinct_iff_nodup _).mp hnodup
  refine ⟨?_, ?_, ?_, fun s => mem_validTransitionsFrom fsm cur s, by rfl⟩
  · intro tr hmem hname hfrom
    have huniq : ∀ x ∈ fsm.transitions,
        (x.name == name && x.from_ == cur) = true → x = tr := by
      intro x hx hpx
      simp only [Bool.and_eq_true, beq_iff_eq] at hpx
      have hnames : x.name = tr.name := by rw [hpx.1, hname]
      exact List.inj_on_of_nodup_map hnd hx hmem hnames
    have hfind : fsm.transitions.find?
        (fun x => x.name == name && x.from_ == cur) = some tr := by
      apply find?_eq_of_unique _ _ tr hmem _ huniq
      simp [hname, hfrom]
    simp [FsmSchema.apply, hfind]
  · intro hnone
    have hfind : fsm.transitions.find?
        (fun x => x.name == name && x.from_ == cur) = none := by
      rw [List.find?_eq_none]
      intro x hx
      simp only [Bool.and_eq_true, beq_iff_eq, not_and]
      intro hn
      exact absurd hn (hnone x hx)
    have hany : fsm.transitions.any (fun tr => tr.name == name) = false := by
      rw [Bool.eq_false_iff]
      intro hcontra
      rw [List.any_eq_true] at hcontra
      obtain ⟨x, hx, hpx⟩ := hcontra
      rw [beq_iff_eq] at hpx
      exact hnone x hx hpx
    simp [FsmSchema.apply, hfind, hany]
  · rintro ⟨tr, htr, hname⟩ hnofrom
    have hfind : fsm.transitions.find?
        (fun x => x.name == name && x.from_ == cur) = none := by
      rw [List.find?_eq_none]
      intro x hx
      simp only [Bool.and_eq_true, beq_iff_eq, not_and]
      intro hn hf
      exact hnofrom x hx hn hf
    have hany : fsm.transitions.any (fun x => x.name == name) = true := by
      rw [List.any_eq_true]
      exact ⟨tr, htr, by simp [hname]⟩
    simp [FsmSchema.apply, hfind, hany]

/-- Witness for C1 at the section-8 example machine: `t1` from the initial
state `A` succeeds into `B`, and a never-declared name is `unknownTransition`. -/
theorem transitionEngine_apply_spec_witness :
    exampleFsm.apply "A" "t1" = Except.ok "B" ∧
    exampleFsm.apply "A" "t9" = Except.error TransitionError.unknownTransition := by
  have h := transitionEngine_apply_spec exampleFsm "A" "t1" (by decide)
  have h9 := transitionEngine_apply_spec exampleFsm "A" "t9" (by decide)
  refine ⟨h.1 ⟨"t1", "A", "B"⟩ (by decide) rfl rfl, h9.2.1 ?_⟩
  intro tr hmem
  fin_cases hmem <;> decide

/-- The `TypeDefinition` record (schema.sql lines 62-81): internal serial id,
owning tenant (`none` = system-defined, visible to all tenants), unique type
code, optional structural-validation schema for the free-form payload
(modelled as the list of required field names, the spec's primary structural
check), and the optional `fsm_schema` state machine.  Fields not used by any
claim (extid, doc, timestamps, ...) are omitted. -/
structure TypeDefinition where
  id : Nat
  tenant_id : Option Nat
  type_code : String
  custom_fields_schema : Option (List String)
  fsm_schema : Option FsmSchema
  is_active : Bool
deriving Repr, DecidableEq

/-- Schema Registry error (spec section 4.1): a definition that is unknown or
owned by a different tenant is indistinguishable from a missing one. -/
inductive RegistryError where
  | notFound
deriving Repr, DecidableEq

/-- Modelled from the spec: the Schema Registry's
`get(typeDefinitionId) -> TypeDefinition` (spec section 4.1), absent from the
repository sources.  It fails with `notFound` if the identifier is unknown or
belongs to a different tenant than the caller's context, except for
tenant-agnostic/system definitions (`tenant_id` null), which are visible to
all tenants. -/
def registryGet (defs : List TypeDefinition) (callerTenant : Nat) (tdId : Nat) :
    Except RegistryError TypeDefinition :=
  match defs.find? (fun td => td.id == tdId) with
  | none => Except.error RegistryError.notFound
  | some td =>
      match td.tenant_id with
      | none => Except.ok td
      | some owner =>
          if owner == callerTenant then Except.ok td
          else Except.error RegistryError.notFound

/-- C7: for every caller tenant and identifier, the Schema Registry returns
the Type Definition iff the identifier exists and the definition is
system-defined (owning tenant null) or belongs to the caller's tenant; in
every other case it fails with `notFound`. -/
theorem registryGet_tenant_isolation (defs : List TypeDefinition) (c i : Nat)
    (hids : (defs.map TypeDefinition.id).Nodup) :
    (∀ td, registryGet defs c i = Except.ok td ↔
      (td ∈ defs ∧ td.id = i ∧ (td.tenant_id = none ∨ td.tenant_id = some c))) ∧
    ((¬ ∃ td ∈ defs, td.id = i ∧ (td.tenant_id = none ∨ td.tenant_id = some c)) →
      registryGet defs c i = Except.error RegistryError.notFound) := by
  constructor
  · intro td
    constructor
    · intro h
      unfold registryGet at h
      split at h
      · cases h
      · rename_i td0 hfind
        have hmem : td0 ∈ defs := List.mem_of_find?_eq_some hfind
        have hid : td0.id = i := by
          have := List.find?_some hfind
          rwa [beq_iff_eq] at this
        split at h
        · rename_i htn
          cases h
          exact ⟨hmem, hid, Or.inl htn⟩
        · rename_i owner htn
          split at h
          · rename_i how
            rw [beq_iff_eq] at how
            cases h
            exact ⟨hmem, hid, Or.inr (how ▸ htn)⟩
          · cases h
    · rintro ⟨hmem, hid, htn⟩
      have hfind : defs.find? (fun td => td.id == i) = some td := by
        apply find?_eq_of_unique _ _ td hmem (by simp [hid])
        intro x hx hpx
        rw [beq_iff_eq] at hpx
        exact List.inj_on_of_nodup_map hids hx hmem (by rw [hpx, hid])
      unfold registryGet
      rw [hfind]
      rcases htn with h0 | h0 <;> simp [h0]
  · intro hnone
    unfold registryGet
    split
    · rfl
    · rename_i td0 hfind
      have hmem : td0 ∈ defs := List.mem_of_find?_eq_some hfind
      have hid : td0.id = i := by
        have := List.find?_some hfind
        rwa [beq_iff_eq] at this
      split
      · rename_i htn
        exact absurd ⟨td0, hmem, hid, Or.inl htn⟩ hnone
      · rename_i owner htn
        split
        · rename_i how
          rw [beq_iff_eq] at how
          exact absurd ⟨td0, hmem, hid, Or.inr (how ▸ htn)⟩ hnone
        · rfl

/-- A two-tenant registry fixture: a system definition, one owned by tenant 1,
one owned by tenant 2. -/
def exampleDefs : List TypeDefinition :=
  [ { id := 1, tenant_id := none, type_code := "generic",
      custom_fields_schema := none, fsm_schema := some exampleFsm, is_active := true },
    { id := 3, tenant_id := some 1, type_code := "food_order",
      custom_fields_schema := none, fsm_schema := some exampleFsm, is_active := true },
    { id := 5, tenant_id := some 2, type_code := "dmv_registration",
      custom_fields_schema := none, fsm_schema := some exampleFsm, is_active := true } ]

/-- Witness for C7: tenant 1 sees the system definition and its own, and
another tenant's definition answers `notFound`. -/
theorem registryGet_tenant_isolation_witness :
    (registryGet exampleDefs 1 1).isOk = true ∧
    (registryGet exampleDefs 1 3).isOk = true ∧
    registryGet exampleDefs 1 5 = Except.error RegistryError.notFound := by
  have h1 := (registryGet_tenant_isolation exampleDefs 1 1 (by decide)).1
  have h5 := (registryGet_tenant_isolation exampleDefs 1 5 (by decide)).2
  refine ⟨?_, ?_, ?_⟩
  · rw [(h1 (exampleDefs.get ⟨0, by decide⟩)).mpr ⟨by decide, by decide, Or.inl (by decide)⟩]
    rfl
  · have h3 := (registryGet_tenant_isolation exampleDefs 1 3 (by decide)).1
    rw [(h3 (exampleDefs.get ⟨1, by decide⟩)).mpr ⟨by decide, by decide, Or.inr (by decide)⟩]
    rfl
  · apply h5
    rintro ⟨td, hmem, hid, htn⟩
    fin_cases hmem <;> simp_all

/-- Configuration-time errors of Type Definition creation (spec sections 4.2
and 9: malformed definitions are rejected immediately at load/creation). -/
inductive ConfigError where
  | missingStateMachine
  | invalidStateMachine
deriving Repr, DecidableEq

/-- Modelled from the spec: Type Definition creation (tenant configuration,
spec sections 3, 4.2, 9), absent from the repository sources.  The state
machine is validated when the definition is created: an absent state machine
and any `fsm_schema` failing `validFsm` (initial state outside the state set,
a transition endpoint outside the set, or a duplicate transition name) are
rejected; a valid definition is appended to the registry. -/
def createTypeDefinition (defs : List TypeDefinition) (td : TypeDefinition) :
    Except ConfigError (List TypeDefinition) :=
  match td.fsm_schema with
  | none => Except.error ConfigError.missingStateMachine
  | some fsm =>
      if validFsm fsm then Except.ok (defs ++ [td])
      else Except.error ConfigError.invalidStateMachine

/-- C6: Type Definition creation validates the state machine at configuration
time: creation succeeds iff the state machine is present and valid, and each
malformed class — absent state machine, initial state outside the state set,
a transition endpoint outside the set, duplicate transition names — is
rejected when the definition is created. -/
theorem createTypeDefinition_validates (defs : List TypeDefinition)
    (td : TypeDefinition) :
    ((createTypeDefinition defs td).isOk = true ↔
        ∃ fsm, td.fsm_schema = some fsm ∧ validFsm fsm = true) ∧
    (td.fsm_schema = none →
        createTypeDefinition defs td = Except.error ConfigError.missingStateMachine) ∧
    (∀ fsm, td.fsm_schema = some fsm → fsm.init ∉ fsm.states →
        createTypeDefinition defs td = Except.error ConfigError.invalidStateMachine) ∧
    (∀ fsm tr, td.fsm_schema = some fsm → tr ∈ fsm.transitions →
        (tr.from_ ∉ fsm.states ∨ tr.to_ ∉ fsm.states) →
        createTypeDefinition defs td = Except.error ConfigError.invalidStateMachine) ∧
    (∀ fsm, td.fsm_schema = some fsm →
        ¬ (fsm.transitions.map Transition.name).Nodup →
        createTypeDefinition defs td = Except.error ConfigError.invalidStateMachine) := by
  refine ⟨?_, ?_, ?_, ?_, ?_⟩
  · constructor
    · intro h
      unfold createTypeDefinition at h
      split at h
      · cases h
      · rename_i fsm hfsm
        split at h
        · rename_i hv
          exact ⟨fsm, hfsm, hv⟩
        · cases h
    · rintro ⟨fsm, hfsm, hv⟩
      unfold createTypeDefinition
      rw [hfsm]
      simp [hv, Except.isOk, Except.toBool]
  · intro hnone
    unfold createTypeDefinition
    rw [hnone]
  · intro fsm hfsm hinit
    unfold createTypeDefinition
    rw [hfsm]
    have hfalse : validFsm fsm = false := by
      rw [Bool.eq_false_iff]
      intro hv
      unfold validFsm at hv
      simp only [Bool.and_eq_true, List.contains_iff_exists_mem_beq] at hv
      obtain ⟨⟨⟨s, hs, hbeq⟩, _⟩, _⟩ := hv
      rw [beq_iff_eq] at hbeq
      exact hinit (hbeq ▸ hs)
    simp [hfalse]
  · intro fsm tr hfsm hmem hbad
    unfold createTypeDefinition
    rw [hfsm]
    have hfalse : validFsm fsm = false := by
      rw [Bool.eq_false_iff]
      intro hv
      unfold validFsm at hv
      simp only [Bool.and_eq_true, List.all_eq_true] at hv
      obtain ⟨⟨_, hall⟩, _⟩ := hv
      have hth := hall tr hmem
      simp only [Bool.and_eq_true, List.contains_iff_exists_mem_beq] at hth
      obtain ⟨⟨s1, hs1, hb1⟩, ⟨s2, hs2, hb2⟩⟩ := hth
      rw [beq_iff_eq] at hb1 hb2
      rcases hbad with h | h
      · exact h (hb1 ▸ hs1)
      · exact h (hb2 ▸ hs2)
    simp [hfalse]
  · intro fsm hfsm hdup
    unfold createTypeDefinition
    rw [hfsm]
    have hfalse : validFsm fsm = false := by
      rw [Bool.eq_false_iff]
      intro hv
      unfold validFsm at hv
      simp only [Bool.and_eq_true] at hv
      exact hdup ((allDistinct_iff_nodup _).mp hv.2)
    simp [hfalse]

/-- Fixture: a well-formed tenant definition. -/
def goodDef : TypeDefinition :=
  { id := 9, tenant_id := some 1, type_code := "food_order",
    custom_fields_schema := none, fsm_schema := some exampleFsm, is_active := true }

/-- Fixture: definition with no state machine at all. -/
def defNoFsm : TypeDefinition := { goodDef with fsm_schema := none }

/-- Fixture: initial state `Z` not in the declared state set. -/
def defBadInit : TypeDefinition :=
  { goodDef with fsm_schema := some { init := "Z", states := ["A"], transitions := [] } }

/-- Fixture: transition target `Z` not in the declared state set. -/
def defBadTarget : TypeDefinition :=
  { goodDef with
    fsm_schema := some { init := "A", states := ["A"], transitions := [⟨"t1", "A", "Z"⟩] } }

/-- Fixture: duplicated transition name `t1`. -/
def defDupName : TypeDefinition :=
  { goodDef with
    fsm_schema := some { init := "A", states := ["A", "B"],
                         transitions := [⟨"t1", "A", "B"⟩, ⟨"t1", "B", "A"⟩] } }

/-- Witness for C6: a valid definition is accepted; variants with a missing
machine, an undeclared initial state, an undeclared transition target, and a
duplicated transition name are each rejected at creation. -/
theorem createTypeDefinition_validates_witness :
    (createTypeDefinition [] goodDef).isOk = true ∧
    createTypeDefinition [] defNoFsm = Except.error ConfigError.missingStateMachine ∧
    createTypeDefinition [] defBadInit = Except.error ConfigError.invalidStateMachine ∧
    createTypeDefinition [] defBadTarget = Except.error ConfigError.invalidStateMachine ∧
    createTypeDefinition [] defDupName = Except.error ConfigError.invalidStateMachine := by
  refine ⟨?_, ?_, ?_, ?_, ?_⟩
  · exact (createTypeDefinition_validates [] goodDef).1.mpr ⟨exampleFsm, rfl, by decide⟩
  · exact (createTypeDefinition_validates [] defNoFsm).2.1 rfl
  · exact (createTypeDefinition_validates [] defBadInit).2.2.1 _ rfl (by decide)
  · exact (createTypeDefinition_validates [] defBadTarget).2.2.2.1 _ ⟨"t1", "A", "Z"⟩ rfl
      (by decide) (Or.inr (by decide))
  · exact (createTypeDefinition_validates [] defDupName).2.2.2.2 _ rfl (by decide)

/-- External identifier assignment as it stands in the repository sources:
`schema.sql` declares `extid UUID UNIQUE NOT NULL DEFAULT uuid_generate_v4()`
on `TypeDefinition` (line 64) and `example-data.sql` fills every table's
`extid` with `uuid_generate_v4()`.  RFC 4122 version 4: the 128-bit value is
the 122-bit random draw with the version nibble (bits 76-79) forced to `0100`
and the variant bits (62-63) forced to `10`.  The generator reads only the
random source, never the clock. -/
def uuid_generate_v4 (rand : Nat) : Nat :=
  let r := rand % 2 ^ 122
  let lo := r % 2 ^ 62
  let mid := (r / 2 ^ 62) % 2 ^ 12
  let hi := r / 2 ^ 74
  hi * 2 ^ 80 + 4 * 2 ^ 76 + mid * 2 ^ 64 + 2 * 2 ^ 62 + lo

/-- Modelled from the spec: the UUID v7 layout the repository's architecture
document prescribes ("This project uses a UUID v7 ... time-sortable"): the
48-bit millisecond timestamp in the most significant bits, version nibble 7,
variant `10`, and 74 random bits. -/
def uuidV7 (unixMillis rand : Nat) : Nat :=
  (unixMillis % 2 ^ 48) * 2 ^ 80 + 7 * 2 ^ 76 +
    ((rand / 2 ^ 62) % 2 ^ 12) * 2 ^ 64 + 2 * 2 ^ 62 + rand % 2 ^ 62

/-- C8 (refuting evaluation): the repository's `extid` default
`uuid_generate_v4` is a function of the random draw alone, so a record
created later (drawing `0`) can receive a strictly smaller identifier than a
record created earlier (drawing all-ones); both values carry the version
nibble 4 that `uuid_generate_v4` always produces.  Identifier assignment by
the code is therefore not monotone in creation time. -/
theorem extid_default_not_time_ordered :
    uuid_generate_v4 0 < uuid_generate_v4 (2 ^ 122 - 1) ∧
    (uuid_generate_v4 0 / 2 ^ 76) % 16 = 4 ∧
    (uuid_generate_v4 (2 ^ 122 - 1) / 2 ^ 76) % 16 = 4 := by decide

/-- Supporting fact for the documented intent: under the UUID v7 layout the
architecture document prescribes, identifiers are monotone in creation time
regardless of the random bits. -/
theorem uuidV7_time_ordered (t1 t2 r1 r2 : Nat) (h1 : t1 < t2) (h2 : t2 < 2 ^ 48) :
    uuidV7 t1 r1 < uuidV7 t2 r2 := by
  unfold uuidV7
  have ht1 : t1 % 2 ^ 48 = t1 := Nat.mod_eq_of_lt (lt_trans h1 h2)
  have ht2 : t2 % 2 ^ 48 = t2 := Nat.mod_eq_of_lt h2
  rw [ht1, ht2]
  have ha1 : (r1 / 2 ^ 62) % 2 ^ 12 < 2 ^ 12 := Nat.mod_lt _ (by norm_num)
  have hb2 : r2 % 2 ^ 62 ≥ 0 := Nat.zero_le _
  have ha2 : (r2 / 2 ^ 62) % 2 ^ 12 ≥ 0 := Nat.zero_le _
  have hb1 : r1 % 2 ^ 62 < 2 ^ 62 := Nat.mod_lt _ (by norm_num)
  omega

/-- Supporting witness for the v7 monotonicity fact at concrete inputs. -/
theorem uuidV7_time_ordered_witness :
    uuidV7 1000 (2 ^ 74 - 1) < uuidV7 1001 0 :=
  uuidV7_time_ordered 1000 1001 (2 ^ 74 - 1) 0 (by norm_num) (by norm_num)

/-- The `Queue` record (schema.sql lines 89-103): owning tenant, the list of
Type Definition ids the queue accepts, and the active flag.  Fields not used
by any claim are omitted. -/
structure Queue where
  id : Nat
  tenant_id : Nat
  allowed_type_definition_ids : List Nat
  is_active : Bool
deriving Repr, DecidableEq

/-- The `Employee` record (schema.sql lines 126-137), reduced to the fields
the lifecycle contracts consult. -/
structure Employee where
  id : Nat
  tenant_id : Nat
deriving Repr, DecidableEq

/-- The `Ticket` record (schema.sql lines 141-172), reduced to the attributes
the claims consult; `custom_data` is the free-form payload as key/value
pairs, timestamps are logical clock values. -/
structure Ticket where
  id : Nat
  queue_id : Nat
  type_definition_id : Nat
  current_state : String
  subject_id : Option Nat
  employee_id : Option Nat
  custom_data : List (String × String)
  ttl_minutes : Option Nat
  expires_at : Option Nat
  created_at : Nat
deriving Repr, DecidableEq

/-- The `TicketStateHistory` record (schema.sql lines 199-207): one immutable
fact per accepted transition, with `previous_state` null for the initial
record. -/
structure TransitionRecord where
  ticket_id : Nat
  previous_state : Option String
  new_state : String
  changed_by_employee_id : Option Nat
  created_at : Nat
deriving Repr, DecidableEq

/-- Reads an association list keyed by queue id (the Queue Membership Index
maps each queue to its ordered list of ticket ids); a queue with no entry has
the empty listing. -/
def getAssoc (m : List (Nat × List Nat)) (q : Nat) : List Nat :=
  match m.find? (fun p => p.1 == q) with
  | some p => p.2
  | none => []

/-- Replaces (or creates) the listing of queue `q`. -/
def setAssoc : List (Nat × List Nat) → Nat → List Nat → List (Nat × List Nat)
  | [], q, l => [(q, l)]
  | (q', l') :: rest, q, l =>
      if q' == q then (q, l) :: rest else (q', l') :: setAssoc rest q l

/-- Modelled from the spec: the Lifecycle Manager's persistent state (spec
sections 2-4): the Type Definition registry, queues, employees, the ticket
store, the append-only Transition Record log, the Queue Membership Index,
a logical clock (each accepted mutation happens at a distinct instant), and
the next internal ticket id. -/
structure System where
  typeDefs : List TypeDefinition
  queues : List Queue
  employees : List Employee
  tickets : List Ticket
  history : List TransitionRecord
  membership : List (Nat × List Nat)
  clock : Nat
  nextTicketId : Nat
deriving Repr, DecidableEq

/-- Error taxonomy of the lifecycle operations (spec section 7). -/
inductive LifecycleError where
  | notFound
  | tenantMismatch
  | queueInactive
  | typeNotAllowed
  | validationError (fieldPath : String)
  | invalidConfiguration
  | transitionRejected (e : TransitionError)
  | noCancellationAvailable
deriving Repr, DecidableEq

/-- Modelled from the spec: the Structural Validator (spec section 4.3) for
the modelled schema shape (the list of required field names): when the schema
is absent any payload is accepted; a missing required field is reported with
its field path. -/
def validatePayload (schema : Option (List String)) (payload : List (String × String)) :
    Except LifecycleError Unit :=
  match schema with
  | none => Except.ok ()
  | some required =>
      match required.find? (fun f => !(payload.any (fun kv => kv.1 == f))) with
      | some f => Except.error (LifecycleError.validationError f)
      | none => Except.ok ()

/-- Replaces the stored ticket with id `tid` by `t'`. -/
def updateTicket (ts : List Ticket) (tid : Nat) (t' : Ticket) : List Ticket :=
  ts.map (fun x => if x.id == tid then t' else x)

/-- Modelled from the spec: `CreateTicket` (spec section 4.4).  Preconditions:
the queue exists, belongs to the caller's tenant, is active, and accepts the
type; the type resolves through the Schema Registry and its payload schema
accepts the payload.  Effect: a fresh ticket in the type's initial state,
`expires_at` computed from `ttl_minutes`, one initial Transition Record with
null previous state, insertion at the tail of the queue's membership
listing, and a clock tick. -/
def createTicket (sys : System) (callerTenant queueId typeDefId : Nat)
    (payload : List (String × String)) (subjectId ttlMinutes : Option Nat) :
    Except LifecycleError (System × Ticket) :=
  match sys.queues.find? (fun q => q.id == queueId) with
  | none => Except.error LifecycleError.notFound
  | some q =>
      if q.tenant_id != callerTenant then Except.error LifecycleError.tenantMismatch
      else if !q.is_active then Except.error LifecycleError.queueInactive
      else if !(q.allowed_type_definition_ids.contains typeDefId) then
        Except.error LifecycleError.typeNotAllowed
      else
        match registryGet sys.typeDefs callerTenant typeDefId with
        | Except.error _ => Except.error LifecycleError.notFound
        | Except.ok td =>
            match td.fsm_schema with
            | none => Except.error LifecycleError.invalidConfiguration
            | some fsm =>
                match validatePayload td.custom_fields_schema payload with
                | Except.error e => Except.error e
                | Except.ok _ =>
                    let t : Ticket :=
                      { id := sys.nextTicketId, queue_id := queueId,
                        type_definition_id := typeDefId, current_state := fsm.init,
                        subject_id := subjectId, employee_id := none,
                        custom_data := payload, ttl_minutes := ttlMinutes,
                        expires_at := ttlMinutes.map (fun m => sys.clock + m),
                        created_at := sys.clock }
                    let r : TransitionRecord :=
                      { ticket_id := sys.nextTicketId, previous_state := none,
                        new_state := fsm.init, changed_by_employee_id := none,
                        created_at := sys.clock }
                    Except.ok
                      ({ sys with
                          tickets := sys.tickets ++ [t],
                          history := sys.history ++ [r],
                          membership := setAssoc sys.membership queueId
                            (getAssoc sys.membership queueId ++ [sys.nextTicketId]),
                          clock := sys.clock + 1,
                          nextTicketId := sys.nextTicketId + 1 }, t)

/-- Modelled from the spec: `TransitionTicket` (spec section 4.4).  The
ticket must exist and belong to the caller's tenant (checked via its queue's
tenant); the transition must be legal per the Transition Engine.  Effect:
atomically update the current state, append one Transition Record carrying
actor and timestamp, tick the clock. -/
def transitionTicket (sys : System) (callerTenant ticketId : Nat)
    (transitionName : String) (employeeId : Option Nat) :
    Except LifecycleError (System × Ticket) :=
  match sys.tickets.find? (fun t => t.id == ticketId) with
  | none => Except.error LifecycleError.notFound
  | some t =>
      match sys.queues.find? (fun q => q.id == t.queue_id) with
      | none => Except.error LifecycleError.notFound
      | some q =>
          if q.tenant_id != callerTenant then Except.error LifecycleError.tenantMismatch
          else
            match registryGet sys.typeDefs callerTenant t.type_definition_id with
            | Except.error _ => Except.error LifecycleError.notFound
            | Except.ok td =>
                match td.fsm_schema with
                | none => Except.error LifecycleError.invalidConfiguration
                | some fsm =>
                    match fsm.apply t.current_state transitionName with
                    | Except.error e => Except.error (LifecycleError.transitionRejected e)
                    | Except.ok next =>
                        let t' : Ticket := { t with current_state := next }
                        let r : TransitionRecord :=
                          { ticket_id := ticketId,
                            previous_state := some t.current_state,
                            new_state := next,
                            changed_by_employee_id := employeeId,
                            created_at := sys.clock }
                        Except.ok
                          ({ sys with
                              tickets := updateTicket sys.tickets ticketId t',
                              history := sys.history ++ [r],
                              clock := sys.clock + 1 }, t')

/-- Modelled from the spec: `AssignEmployee` (spec section 4.4): a pure
ownership update with no state-machine involvement; fails when the employee
belongs to a different tenant than the ticket. -/
def assignEmployee (sys : System) (callerTenant ticketId employeeId : Nat) :
    Except LifecycleError (System × Ticket) :=
  match sys.tickets.find? (fun t => t.id == ticketId) with
  | none => Except.error LifecycleError.notFound
  | some t =>
      match sys.queues.find? (fun q => q.id == t.queue_id) with
      | none => Except.error LifecycleError.notFound
      | some q =>
          if q.tenant_id != callerTenant then Except.error LifecycleError.tenantMismatch
          else
            match sys.employees.find? (fun e => e.id == employeeId) with
            | none => Except.error LifecycleError.notFound
            | some e =>
                if e.tenant_id != q.tenant_id then Except.error LifecycleError.tenantMismatch
                else
                  let t' : Ticket := { t with employee_id := some employeeId }
                  Except.ok
                    ({ sys with
                        tickets := updateTicket sys.tickets ticketId t',
                        clock := sys.clock + 1 }, t')

/-- Modelled from the spec: `ForwardTicket` (spec section 4.4).  Precondition:
the target queue exists, belongs to the same tenant, is active and accepts
the ticket's type.  Effect: atomically remove the ticket from the source
queue's membership listing and insert it at the tail of the target's; the
ticket record changes only in its queue ownership — in particular
`current_state` is untouched and the Transition Engine is not involved. -/
def forwardTicket (sys : System) (callerTenant ticketId targetQueueId : Nat) :
    Except LifecycleError (System × Ticket) :=
  match sys.tickets.find? (fun t => t.id == ticketId) with
  | none => Except.error LifecycleError.notFound
  | some t =>
      match sys.queues.find? (fun q => q.id == t.queue_id) with
      | none => Except.error LifecycleError.notFound
      | some q =>
          if q.tenant_id != callerTenant then Except.error LifecycleError.tenantMismatch
          else
            match sys.queues.find? (fun tq => tq.id == targetQueueId) with
            | none => Except.error LifecycleError.notFound
            | some tq =>
                if tq.tenant_id != callerTenant then Except.error LifecycleError.tenantMismatch
                else if !tq.is_active then Except.error LifecycleError.queueInactive
                else if !(tq.allowed_type_definition_ids.contains t.type_definition_id) then
                  Except.error LifecycleError.typeNotAllowed
                else
                  let t' : Ticket := { t with queue_id := targetQueueId }
                  let m1 := setAssoc sys.membership t.queue_id
                    ((getAssoc sys.membership t.queue_id).filter (fun x => x != ticketId))
                  let m2 := setAssoc m1 targetQueueId
                    (getAssoc m1 targetQueueId ++ [ticketId])
                  Except.ok
                    ({ sys with
                        tickets := updateTicket sys.tickets ticketId t',
                        membership := m2,
                        clock := sys.clock + 1 }, t')

/-- Inserts `x` at position `pos` of `l` (clamped to the tail). -/
def insertAt (x : Nat) : Nat → List Nat → List Nat
  | _, [] => [x]
  | 0, l => x :: l
  | pos + 1, y :: ys => y :: insertAt x pos ys

/-- Modelled from the spec: `ReorderTicket` (spec section 4.4): repositions
the ticket within its queue's ordered index; the ticket record itself — its
state included — is untouched. -/
def reorderTicket (sys : System) (callerTenant ticketId newPosition : Nat) :
    Except LifecycleError (System × Ticket) :=
  match sys.tickets.find? (fun t => t.id == ticketId) with
  | none => Except.error LifecycleError.notFound
  | some t =>
      match sys.queues.find? (fun q => q.id == t.queue_id) with
      | none => Except.error LifecycleError.notFound
      | some q =>
          if q.tenant_id != callerTenant then Except.error LifecycleError.tenantMismatch
          else if !((getAssoc sys.membership t.queue_id).contains ticketId) then
            Except.error LifecycleError.notFound
          else
            Except.ok
              ({ sys with
                  membership := setAssoc sys.membership t.queue_id
                    (insertAt ticketId newPosition
                      ((getAssoc sys.membership t.queue_id).filter (fun x => x != ticketId))),
                  clock := sys.clock + 1 }, t)

/-- Modelled from the spec: `CancelTicket` (spec section 4.4): sugar over
`TransitionTicket` using whichever cancellation transition (one entering the
terminal `cancelled` state) the type definition exposes from the current
state; fails with `noCancellationAvailable` when none exists. -/
def cancelTicket (sys : System) (callerTenant ticketId : Nat) (employeeId : Option Nat) :
    Except LifecycleError (System × Ticket) :=
  match sys.tickets.find? (fun t => t.id == ticketId) with
  | none => Except.error LifecycleError.notFound
  | some t =>
      match registryGet sys.typeDefs callerTenant t.type_definition_id with
      | Except.error _ => Except.error LifecycleError.notFound
      | Except.ok td =>
          match td.fsm_schema with
          | none => Except.error LifecycleError.invalidConfiguration
          | some fsm =>
              match fsm.transitions.find?
                  (fun tr => tr.from_ == t.current_state && tr.to_ == "cancelled") with
              | none => Except.error LifecycleError.noCancellationAvailable
              | some tr => transitionTicket sys callerTenant ticketId tr.name employeeId

/-- The lifecycle operations of spec section 4.4 plus Type Definition
creation, as one request type. -/
inductive Op where
  | create (callerTenant queueId typeDefId : Nat)
      (payload : List (String × String)) (subjectId ttlMinutes : Option Nat)
  | transition (callerTenant ticketId : Nat) (name : String) (employeeId : Option Nat)
  | assign (callerTenant ticketId employeeId : Nat)
  | forward (callerTenant ticketId targetQueueId : Nat)
  | reorder (callerTenant ticketId newPosition : Nat)
  | cancel (callerTenant ticketId : Nat) (employeeId : Option Nat)
  | defineType (td : TypeDefinition)
deriving Repr, DecidableEq

/-- Modelled from the spec: executing one request.  A rejected mutation
leaves the system exactly as it was (spec section 7: every rejected mutation
leaves the ticket in its prior, still-valid state). -/
def applyOp (sys : System) (op : Op) : System :=
  match op with
  | Op.create c q td p s ttl =>
      match createTicket sys c q td p s ttl with
      | Except.ok (sys', _) => sys'
      | Except.error _ => sys
  | Op.transition c tid n e =>
      match transitionTicket sys c tid n e with
      | Except.ok (sys', _) => sys'
      | Except.error _ => sys
  | Op.assign c tid e =>
      match assignEmployee sys c tid e with
      | Except.ok (sys', _) => sys'
      | Except.error _ => sys
  | Op.forward c tid tq =>
      match forwardTicket sys c tid tq with
      | Except.ok (sys', _) => sys'
      | Except.error _ => sys
  | Op.reorder c tid pos =>
      match reorderTicket sys c tid pos with
      | Except.ok (sys', _) => sys'
      | Except.error _ => sys
  | Op.cancel c tid e =>
      match cancelTicket sys c tid e with
      | Except.ok (sys', _) => sys'
      | Except.error _ => sys
  | Op.defineType td =>
      match createTypeDefinition sys.typeDefs td with
      | Except.ok defs' => { sys with typeDefs := defs', clock := sys.clock + 1 }
      | Except.error _ => sys

/-- Runs a sequence of requests. -/
def runOps (sys : System) (ops : List Op) : System := ops.foldl applyOp sys

/-- Boolean form of the per-ticket state invariant: the ticket's type
definition resolves and the current state is one of its declared states. -/
def ticketStateOk (defs : List TypeDefinition) (t : Ticket) : Bool :=
  match defs.find? (fun d => d.id == t.type_definition_id) with
  | some td =>
      match td.fsm_schema with
      | some fsm => fsm.states.contains t.current_state
      | none => false
  | none => false

/-- Boolean configuration validity of one stored definition. -/
def validTypeDef (td : TypeDefinition) : Bool :=
  match td.fsm_schema with
  | some fsm => validFsm fsm
  | none => false

/-- System well-formedness, established at configuration time and preserved
by every operation: all stored Type Definitions are configuration-valid,
every ticket's current state is legal, ticket ids are unique and below the
id counter, history rows reference allocated ids, and the log's creation
times are strictly increasing and below the clock. -/
def WF (sys : System) : Prop :=
  (∀ td ∈ sys.typeDefs, validTypeDef td = true) ∧
  (∀ t ∈ sys.tickets, ticketStateOk sys.typeDefs t = true) ∧
  (∀ t ∈ sys.tickets, t.id < sys.nextTicketId) ∧
  (sys.tickets.map Ticket.id).Nodup ∧
  (∀ r ∈ sys.history, r.ticket_id < sys.nextTicketId) ∧
  (∀ r ∈ sys.history, r.created_at < sys.clock) ∧
  sys.history.Pairwise (fun a b => a.created_at < b.created_at)

instance (sys : System) : Decidable (WF sys) := by
  unfold WF
  infer_instance

/-- The Transition Record log of one ticket, oldest first (the history
query of spec section 6). -/
def historyFor (sys : System) (tid : Nat) : List TransitionRecord :=
  sys.history.filter (fun r => r.ticket_id == tid)

theorem registryGet_ok_elim {defs : List TypeDefinition} {c i : Nat} {td : TypeDefinition}
    (h : registryGet defs c i = Except.ok td) :
    defs.find? (fun d => d.id == i) = some td := by
  unfold registryGet at h
  split at h
  · cases h
  · rename_i td0 hfind
    split at h
    · cases h; exact hfind
    · split at h
      · cases h; exact hfind
      · cases h

theorem apply_ok_elim {fsm : FsmSchema} {cur n s : String}
    (h : fsm.apply cur n = Except.ok s) :
    ∃ tr ∈ fsm.transitions, tr.name = n ∧ tr.from_ = cur ∧ tr.to_ = s := by
  unfold FsmSchema.apply at h
  split at h
  · rename_i tr hfind
    cases h
    have hmem := List.mem_of_find?_eq_some hfind
    have hp := List.find?_some hfind
    simp only [Bool.and_eq_true, beq_iff_eq] at hp
    exact ⟨tr, hmem, hp.1, hp.2, rfl⟩
  · split at h <;> cases h

theorem validFsm_contains_init {fsm : FsmSchema} (h : validFsm fsm = true) :
    fsm.states.contains fsm.init = true := by
  unfold validFsm at h
  simp only [Bool.and_eq_true] at h
  exact h.1.1

theorem validFsm_contains_to {fsm : FsmSchema} {tr : Transition}
    (h : validFsm fsm = true) (hmem : tr ∈ fsm.transitions) :
    fsm.states.contains tr.to_ = true := by
  unfold validFsm at h
  simp only [Bool.and_eq_true, List.all_eq_true] at h
  have := h.1.2 tr hmem
  simp only [Bool.and_eq_true] at this
  exact this.2

theorem validFsm_names_nodup {fsm : FsmSchema} (h : validFsm fsm = true) :
    (fsm.transitions.map Transition.name).Nodup := by
  unfold validFsm at h
  simp only [Bool.and_eq_true] at h
  exact (allDistinct_iff_nodup _).mp h.2

theorem find?_append_some {α : Type} {p : α → Bool} {l l' : List α} {a : α}
    (h : l.find? p = some a) : (l ++ l').find? p = some a := by
  induction l with
  | nil => cases h
  | cons y ys ih =>
      rw [List.cons_append]
      rw [List.find?] at h ⊢
      cases hy : p y with
      | true => rw [hy] at h; exact h
      | false => rw [hy] at h; exact ih h

theorem getAssoc_setAssoc_same (m : List (Nat × List Nat)) (q : Nat) (l : List Nat) :
    getAssoc (setAssoc m q l) q = l := by
  induction m with
  | nil => simp [setAssoc, getAssoc, List.find?]
  | cons p rest ih =>
      obtain ⟨q', l'⟩ := p
      by_cases hq : q' = q
      · simp [setAssoc, hq, getAssoc, List.find?]
      · rw [setAssoc, if_neg (by simp [hq])]
        rw [getAssoc, List.find?]
        rw [show ((q', l').1 == q) = false by simp [hq]]
        exact ih

theorem getAssoc_setAssoc_ne (m : List (Nat × List Nat)) (q q' : Nat) (l : List Nat)
    (hne : q' ≠ q) : getAssoc (setAssoc m q l) q' = getAssoc m q' := by
  induction m with
  | nil =>
      simp only [setAssoc, getAssoc, List.find?]
      rw [show ((q, l).1 == q') = false by simp [Ne.symm hne]]
  | cons p rest ih =>
      obtain ⟨q0, l0⟩ := p
      by_cases hq : q0 = q
      · subst hq
        rw [setAssoc, if_pos (by simp)]
        unfold getAssoc
        rw [List.find?, List.find?]
        rw [show ((q0, l).1 == q') = false by simp [Ne.symm hne]]
      · rw [setAssoc, if_neg (by simp [hq])]
        unfold getAssoc
        rw [List.find?, List.find?]
        cases hq0 : ((q0, l0).1 == q') with
        | true => rfl
        | false => exact ih

theorem updateTicket_map_id (ts : List Ticket) (tid : Nat) (t' : Ticket)
    (hid : t'.id = tid) :
    (updateTicket ts tid t').map Ticket.id = ts.map Ticket.id := by
  unfold updateTicket
  rw [List.map_map]
  apply List.map_congr_left
  intro x _
  simp only [Function.comp]
  by_cases hx : x.id = tid
  · rw [if_pos (by simp [hx]), hid, hx]
  · rw [if_neg (by simp [hx])]

theorem mem_updateTicket {ts : List Ticket} {tid : Nat} {t' x : Ticket}
    (h : x ∈ updateTicket ts tid t') : x = t' ∨ x ∈ ts := by
  unfold updateTicket at h
  rw [List.mem_map] at h
  obtain ⟨y, hy, hxy⟩ := h
  by_cases hyid : y.id = tid
  · rw [if_pos (by simp [hyid])] at hxy
    exact Or.inl hxy.symm
  · rw [if_neg (by simp [hyid])] at hxy
    exact Or.inr (hxy ▸ hy)

theorem find?_updateTicket {ts : List Ticket} {tid : Nat} {t t' : Ticket}
    (h : ts.find? (fun x => x.id == tid) = some t) (hid : t'.id = tid) :
    (updateTicket ts tid t').find? (fun x => x.id == tid) = some t' := by
  induction ts with
  | nil => cases h
  | cons y ys ih =>
      unfold updateTicket
      rw [List.map_cons, List.find?]
      by_cases hy : y.id = tid
      · rw [if_pos (by simp [hy])]
        rw [show (t'.id == tid) = true by simp [hid]]
      · rw [if_neg (by simp [hy])]
        rw [show (y.id == tid) = false by simp [hy]]
        rw [List.find?] at h
        rw [show (y.id == tid) = false by simp [hy]] at h
        exact ih h

theorem ticketStateOk_ignores_queue (defs : List TypeDefinition) (t : Ticket)
    (qid : Nat) : ticketStateOk defs { t with queue_id := qid } = ticketStateOk defs t := rfl

theorem ticketStateOk_ignores_employee (defs : List TypeDefinition) (t : Ticket)
    (e : Option Nat) :
    ticketStateOk defs { t with employee_id := e } = ticketStateOk defs t := rfl

theorem ticketStateOk_append (defs : List TypeDefinition) (td : TypeDefinition)
    (t : Ticket) (h : ticketStateOk defs t = true) :
    ticketStateOk (defs ++ [td]) t = true := by
  unfold ticketStateOk at h ⊢
  split at h
  · rename_i td0 hfind
    rw [find?_append_some hfind]
    exact h
  · cases h

theorem ticketStateOk_of_state_mem {defs : List TypeDefinition} {t : Ticket}
    {td : TypeDefinition} {fsm : FsmSchema}
    (hfind : defs.find? (fun d => d.id == t.type_definition_id) = some td)
    (hfsm : td.fsm_schema = some fsm)
    (hstate : fsm.states.contains t.current_state = true) :
    ticketStateOk defs t = true := by
  unfold ticketStateOk
  simp only [hfind, hfsm]
  exact hstate

theorem createTypeDefinition_ok_elim {defs defs' : List TypeDefinition}
    {td : TypeDefinition} (h : createTypeDefinition defs td = Except.ok defs') :
    defs' = defs ++ [td] ∧ validTypeDef td = true := by
  unfold createTypeDefinition at h
  split at h
  · cases h
  · rename_i fsm hfsm
    split at h
    · rename_i hv
      cases h
      refine ⟨rfl, ?_⟩
      unfold validTypeDef
      rw [hfsm]
      exact hv
    · cases h

theorem wf_createTicket {sys : System} {c qid tdid : Nat} {p : List (String × String)}
    {subj ttl : Option Nat} {sys' : System} {tk : Ticket}
    (hwf : WF sys)
    (h : createTicket sys c qid tdid p subj ttl = Except.ok (sys', tk)) :
    WF sys' := by
  obtain ⟨hdefs, hstates, hids, hnodup, hhid, hht, hpw⟩ := hwf
  unfold createTicket at h
  split at h
  · cases h
  · rename_i q hq
    split at h
    · cases h
    split at h
    · cases h
    split at h
    · cases h
    split at h
    · cases h
    rename_i td hreg
    split at h
    · cases h
    rename_i fsm hfsm
    split at h
    · cases h
    simp only [Except.ok.injEq, Prod.mk.injEq] at h
    obtain ⟨hsys, htk⟩ := h
    subst hsys
    have hmemtd : td ∈ sys.typeDefs :=
      List.mem_of_find?_eq_some (registryGet_ok_elim hreg)
    have hvtd : validTypeDef td = true := hdefs td hmemtd
    have hv : validFsm fsm = true := by
      unfold validTypeDef at hvtd
      rw [hfsm] at hvtd
      exact hvtd
    refine ⟨hdefs, ?_, ?_, ?_, ?_, ?_, ?_⟩
    · intro x hx
      rcases List.mem_append.mp hx with hx | hx
      · exact hstates x hx
      · rw [List.mem_singleton] at hx
        subst hx
        exact ticketStateOk_of_state_mem (registryGet_ok_elim hreg) hfsm
          (validFsm_contains_init hv)
    · intro x hx
      rcases List.mem_append.mp hx with hx | hx
      · exact Nat.lt_succ_of_lt (hids x hx)
      · rw [List.mem_singleton] at hx
        subst hx
        exact Nat.lt_succ_self _
    · rw [List.map_append]
      refine List.Nodup.append hnodup (List.nodup_singleton _) ?_
      intro a ha hb
      rw [List.map_singleton, List.mem_singleton] at hb
      rw [List.mem_map] at ha
      obtain ⟨x, hx, hxa⟩ := ha
      have h1 := hids x hx
      have hb' : a = sys.nextTicketId := hb
      rw [hxa, hb'] at h1
      exact absurd h1 (lt_irrefl _)
    · intro r hr
      rcases List.mem_append.mp hr with hr | hr
      · exact Nat.lt_succ_of_lt (hhid r hr)
      · rw [List.mem_singleton] at hr
        subst hr
        exact Nat.lt_succ_self _
    · intro r hr
      rcases List.mem_append.mp hr with hr | hr
      · exact Nat.lt_succ_of_lt (hht r hr)
      · rw [List.mem_singleton] at hr
        subst hr
        exact Nat.lt_succ_self _
    · rw [List.pairwise_append]
      refine ⟨hpw, List.pairwise_singleton _ _, ?_⟩
      intro a ha b hb
      rw [List.mem_singleton] at hb
      subst hb
      exact hht a ha

theorem wf_transitionTicket {sys : System} {c tid : Nat} {n : String}
    {e : Option Nat} {sys' : System} {tk : Ticket}
    (hwf : WF sys)
    (h : transitionTicket sys c tid n e = Except.ok (sys', tk)) :
    WF sys' := by
  obtain ⟨hdefs, hstates, hids, hnodup, hhid, hht, hpw⟩ := hwf
  unfold transitionTicket at h
  split at h
  · cases h
  · rename_i t hot
    split at h
    · cases h
    rename_i q hq
    split at h
    · cases h
    split at h
    · cases h
    rename_i td hreg
    split at h
    · cases h
    rename_i fsm hfsm
    split at h
    · cases h
    rename_i next happly
    simp only [Except.ok.injEq, Prod.mk.injEq] at h
    obtain ⟨hsys, htk⟩ := h
    subst hsys
    have htmem : t ∈ sys.tickets := List.mem_of_find?_eq_some hot
    have htid : t.id = tid := by
      have := List.find?_some hot
      rwa [beq_iff_eq] at this
    have hmemtd : td ∈ sys.typeDefs :=
      List.mem_of_find?_eq_some (registryGet_ok_elim hreg)
    have hv : validFsm fsm = true := by
      have hvtd := hdefs td hmemtd
      unfold validTypeDef at hvtd
      rw [hfsm] at hvtd
      exact hvtd
    obtain ⟨tr, htr, hname, hfrom, hto⟩ := apply_ok_elim happly
    refine ⟨hdefs, ?_, ?_, ?_, ?_, ?_, ?_⟩
    · intro x hx
      rcases mem_updateTicket hx with hx | hx
      · subst hx
        refine ticketStateOk_of_state_mem (registryGet_ok_elim hreg) hfsm ?_
        rw [show ({ t with current_state := next } : Ticket).current_state = next from rfl]
        exact hto ▸ validFsm_contains_to hv htr
      · exact hstates x hx
    · intro x hx
      rcases mem_updateTicket hx with hx | hx
      · subst hx
        exact hids t htmem
      · exact hids x hx
    · have hmap := updateTicket_map_id sys.tickets tid { t with current_state := next } htid
      exact hmap.symm ▸ hnodup
    · intro r hr
      rcases List.mem_append.mp hr with hr | hr
      · exact hhid r hr
      · rw [List.mem_singleton] at hr
        subst hr
        exact htid ▸ hids t htmem
    · intro r hr
      rcases List.mem_append.mp hr with hr | hr
      · exact Nat.lt_succ_of_lt (hht r hr)
      · rw [List.mem_singleton] at hr
        subst hr
        exact Nat.lt_succ_self _
    · rw [List.pairwise_append]
      refine ⟨hpw, List.pairwise_singleton _ _, ?_⟩
      intro a ha b hb
      rw [List.mem_singleton] at hb
      subst hb
      exact hht a ha

theorem wf_assignEmployee {sys : System} {c tid eid : Nat} {sys' : System} {tk : Ticket}
    (hwf : WF sys)
    (h : assignEmployee sys c tid eid = Except.ok (sys', tk)) :
    WF sys' := by
  obtain ⟨hdefs, hstates, hids, hnodup, hhid, hht, hpw⟩ := hwf
  unfold assignEmployee at h
  split at h
  · cases h
  · rename_i t hot
    split at h
    · cases h
    rename_i q hq
    split at h
    · cases h
    split at h
    · cases h
    rename_i emp hemp
    split at h
    · cases h
    simp only [Except.ok.injEq, Prod.mk.injEq] at h
    obtain ⟨hsys, htk⟩ := h
    subst hsys
    have htmem : t ∈ sys.tickets := List.mem_of_find?_eq_some hot
    have htid : t.id = tid := by
      have := List.find?_some hot
      rwa [beq_iff_eq] at this
    refine ⟨hdefs, ?_, ?_, ?_, hhid, ?_, hpw⟩
    · intro x hx
      rcases mem_updateTicket hx with hx | hx
      · subst hx
        rw [ticketStateOk_ignores_employee]
        exact hstates t htmem
      · exact hstates x hx
    · intro x hx
      rcases mem_updateTicket hx with hx | hx
      · subst hx
        exact hids t htmem
      · exact hids x hx
    · have hmap := updateTicket_map_id sys.tickets tid { t with employee_id := some eid } htid
      exact hmap.symm ▸ hnodup
    · intro r hr
      exact Nat.lt_succ_of_lt (hht r hr)

theorem wf_forwardTicket {sys : System} {c tid tqid : Nat} {sys' : System} {tk : Ticket}
    (hwf : WF sys)
    (h : forwardTicket sys c tid tqid = Except.ok (sys', tk)) :
    WF sys' := by
  obtain ⟨hdefs, hstates, hids, hnodup, hhid, hht, hpw⟩ := hwf
  unfold forwardTicket at h
  split at h
  · cases h
  · rename_i t hot
    split at h
    · cases h
    rename_i q hq
    split at h
    · cases h
    split at h
    · cases h
    rename_i tq htq
    split at h
    · cases h
    split at h
    · cases h
    split at h
    · cases h
    simp only [Except.ok.injEq, Prod.mk.injEq] at h
    obtain ⟨hsys, htk⟩ := h
    subst hsys
    have htmem : t ∈ sys.tickets := List.mem_of_find?_eq_some hot
    have htid : t.id = tid := by
      have := List.find?_some hot
      rwa [beq_iff_eq] at this
    refine ⟨hdefs, ?_, ?_, ?_, hhid, ?_, hpw⟩
    · intro x hx
      rcases mem_updateTicket hx with hx | hx
      · subst hx
        rw [ticketStateOk_ignores_queue]
        exact hstates t htmem
      · exact hstates x hx
    · intro x hx
      rcases mem_updateTicket hx with hx | hx
      · subst hx
        exact hids t htmem
      · exact hids x hx
    · have hmap := updateTicket_map_id sys.tickets tid { t with queue_id := tqid } htid
      exact hmap.symm ▸ hnodup
    · intro r hr
      exact Nat.lt_succ_of_lt (hht r hr)

theorem wf_reorderTicket {sys : System} {c tid pos : Nat} {sys' : System} {tk : Ticket}
    (hwf : WF sys)
    (h : reorderTicket sys c tid pos = Except.ok (sys', tk)) :
    WF sys' := by
  obtain ⟨hdefs, hstates, hids, hnodup, hhid, hht, hpw⟩ := hwf
  unfold reorderTicket at h
  split at h
  · cases h
  · rename_i t hot
    split at h
    · cases h
    rename_i q hq
    split at h
    · cases h
    split at h
    · cases h
    simp only [Except.ok.injEq, Prod.mk.injEq] at h
    obtain ⟨hsys, htk⟩ := h
    subst hsys
    refine ⟨hdefs, hstates, hids, hnodup, hhid, ?_, hpw⟩
    intro r hr
    exact Nat.lt_succ_of_lt (hht r hr)

theorem wf_cancelTicket {sys : System} {c tid : Nat} {e : Option Nat}
    {sys' : System} {tk : Ticket}
    (hwf : WF sys)
    (h : cancelTicket sys c tid e = Except.ok (sys', tk)) :
    WF sys' := by
  unfold cancelTicket at h
  split at h
  · cases h
  · split at h
    · cases h
    split at h
    · cases h
    split at h
    · cases h
    exact wf_transitionTicket hwf h

theorem wf_applyOp (sys : System) (op : Op) (hwf : WF sys) : WF (applyOp sys op) := by
  obtain ⟨hdefs, hstates, hids, hnodup, hhid, hht, hpw⟩ := hwf
  have hwf' : WF sys := ⟨hdefs, hstates, hids, hnodup, hhid, hht, hpw⟩
  cases op with
  | create c q td p s ttl =>
      simp only [applyOp]
      split
      · rename_i sys' tk h
        exact wf_createTicket hwf' h
      · exact hwf'
  | transition c tid n e =>
      simp only [applyOp]
      split
      · rename_i sys' tk h
        exact wf_transitionTicket hwf' h
      · exact hwf'
  | assign c tid e =>
      simp only [applyOp]
      split
      · rename_i sys' tk h
        exact wf_assignEmployee hwf' h
      · exact hwf'
  | forward c tid tq =>
      simp only [applyOp]
      split
      · rename_i sys' tk h
        exact wf_forwardTicket hwf' h
      · exact hwf'
  | reorder c tid pos =>
      simp only [applyOp]
      split
      · rename_i sys' tk h
        exact wf_reorderTicket hwf' h
      · exact hwf'
  | cancel c tid e =>
      simp only [applyOp]
      split
      · rename_i sys' tk h
        exact wf_cancelTicket hwf' h
      · exact hwf'
  | defineType td =>
      simp only [applyOp]
      split
      · rename_i defs' h
        obtain ⟨hd, hvtd⟩ := createTypeDefinition_ok_elim h
        subst hd
        refine ⟨?_, ?_, hids, hnodup, hhid, ?_, hpw⟩
        · intro x hx
          rcases List.mem_append.mp hx with hx | hx
          · exact hdefs x hx
          · rw [List.mem_singleton] at hx
            subst hx
            exact hvtd
        · intro t ht
          exact ticketStateOk_append _ _ _ (hstates t ht)
        · intro r hr
          exact Nat.lt_succ_of_lt (hht r hr)
      · exact hwf'

theorem wf_runOps (sys : System) (ops : List Op) (hwf : WF sys) :
    WF (runOps sys ops) := by
  induction ops generalizing sys with
  | nil => exact hwf
  | cons op rest ih =>
      rw [runOps, List.foldl_cons]
      exact ih (applyOp sys op) (wf_applyOp sys op hwf)

/-- C2: after any sequence of lifecycle operations run from a well-formed
system, every ticket's `current_state` is a member of the state set declared
by its owning Type Definition's state machine. -/
theorem ticket_state_always_legal (sys : System) (hwf : WF sys) (ops : List Op) :
    ∀ t ∈ (runOps sys ops).tickets, ∃ td fsm,
      (runOps sys ops).typeDefs.find? (fun d => d.id == t.type_definition_id) = some td ∧
      td.fsm_schema = some fsm ∧ t.current_state ∈ fsm.states := by
  intro t ht
  have hwfr := wf_runOps sys ops hwf
  have hok := hwfr.2.1 t ht
  unfold ticketStateOk at hok
  split at hok
  · rename_i td hfind
    split at hok
    · rename_i fsm hfsm
      refine ⟨td, fsm, hfind, hfsm, ?_⟩
      rw [List.contains_iff_exists_mem_beq] at hok
      obtain ⟨s, hs, hbeq⟩ := hok
      rw [beq_iff_eq] at hbeq
      rw [hbeq]
      exact hs
    · cases hok
  · cases hok

/-- Demo fixture: queue 1 of tenant 1, accepting type definition 3. -/
def demoQueue : Queue :=
  { id := 1, tenant_id := 1, allowed_type_definition_ids := [3], is_active := true }

/-- Demo fixture: a second queue of tenant 1, accepting the same type. -/
def demoQueue2 : Queue :=
  { id := 2, tenant_id := 1, allowed_type_definition_ids := [3], is_active := true }

/-- Demo fixture: tenant 1's type definition 3 with the section-8 machine. -/
def demoTypeDef : TypeDefinition :=
  { id := 3, tenant_id := some 1, type_code := "food_order",
    custom_fields_schema := none, fsm_schema := some exampleFsm, is_active := true }

/-- Demo fixture: employee 7 of tenant 1. -/
def demoEmployee : Employee := { id := 7, tenant_id := 1 }

/-- Demo fixture: a well-formed empty system for tenant 1. -/
def demoSys : System :=
  { typeDefs := [demoTypeDef], queues := [demoQueue, demoQueue2],
    employees := [demoEmployee], tickets := [], history := [],
    membership := [], clock := 0, nextTicketId := 1 }

/-- Demo fixture: the ticket `CreateTicket` makes in `demoSys`. -/
def demoTicketA : Ticket :=
  { id := 1, queue_id := 1, type_definition_id := 3, current_state := "A",
    subject_id := none, employee_id := none, custom_data := [],
    ttl_minutes := none, expires_at := none, created_at := 0 }

/-- Demo fixture: the initial Transition Record of `demoTicketA`. -/
def demoRec0 : TransitionRecord :=
  { ticket_id := 1, previous_state := none, new_state := "A",
    changed_by_employee_id := none, created_at := 0 }

/-- Demo fixture: `demoSys` right after the create. -/
def demoSys1 : System :=
  { demoSys with
    tickets := [demoTicketA], history := [demoRec0],
    membership := [(1, [1])], clock := 1, nextTicketId := 2 }

/-- Demo fixture: `demoTicketA` after transition `t1`. -/
def demoTicketB : Ticket := { demoTicketA with current_state := "B" }

/-- Demo fixture: a create followed by a `t1` transition. -/
def demoOps : List Op :=
  [Op.create 1 1 3 [] none none, Op.transition 1 1 "t1" (some 7)]

/-- Witness for C2: running the demo operations leaves the demo ticket in
state `B`, a declared state of its type's machine. -/
theorem ticket_state_always_legal_witness :
    ∃ td fsm,
      (runOps demoSys demoOps).typeDefs.find?
        (fun d => d.id == demoTicketB.type_definition_id) = some td ∧
      td.fsm_schema = some fsm ∧ demoTicketB.current_state ∈ fsm.states :=
  ticket_state_always_legal demoSys (by decide) demoOps demoTicketB (by decide)

/-- C3: every successful `CreateTicket` yields a ticket whose current state
is its Type Definition's initial state, and the history of the fresh ticket
is exactly one Transition Record with null previous state and the initial
state as its new state. -/
theorem createTicket_initial_state_and_history
    (sys : System) (c qid tdid : Nat) (p : List (String × String))
    (subj ttl : Option Nat) (sys' : System) (tk : Ticket)
    (hwf : WF sys)
    (h : createTicket sys c qid tdid p subj ttl = Except.ok (sys', tk)) :
    ∃ td fsm, registryGet sys.typeDefs c tdid = Except.ok td ∧
      td.fsm_schema = some fsm ∧
      tk.current_state = fsm.init ∧
      historyFor sys' tk.id =
        [{ ticket_id := tk.id, previous_state := none, new_state := fsm.init,
           changed_by_employee_id := none, created_at := sys.clock }] := by
  obtain ⟨_, _, _, _, hhid, _, _⟩ := hwf
  unfold createTicket at h
  split at h
  · cases h
  · rename_i q hq
    split at h
    · cases h
    split at h
    · cases h
    split at h
    · cases h
    split at h
    · cases h
    rename_i td hreg
    split at h
    · cases h
    rename_i fsm hfsm
    split at h
    · cases h
    simp only [Except.ok.injEq, Prod.mk.injEq] at h
    obtain ⟨hsys, htk⟩ := h
    subst hsys
    have htkid : tk.id = sys.nextTicketId := by rw [← htk]
    have htkst : tk.current_state = fsm.init := by rw [← htk]
    refine ⟨td, fsm, hreg, hfsm, htkst, ?_⟩
    unfold historyFor
    have hemp : sys.history.filter (fun r => r.ticket_id == tk.id) = [] := by
      rw [List.filter_eq_nil_iff]
      intro r hr
      have h1 := hhid r hr
      rw [htkid]
      simp only [beq_iff_eq]
      omega
    rw [List.filter_append, hemp, List.nil_append]
    simp [htkid]

/-- Witness for C3 on the demo system: the created ticket starts in `A` and
its history is the single initial record. -/
theorem createTicket_initial_state_and_history_witness :
    ∃ td fsm, registryGet demoSys.typeDefs 1 3 = Except.ok td ∧
      td.fsm_schema = some fsm ∧
      demoTicketA.current_state = fsm.init ∧
      historyFor demoSys1 demoTicketA.id =
        [{ ticket_id := demoTicketA.id, previous_state := none, new_state := fsm.init,
           changed_by_employee_id := none, created_at := demoSys.clock }] :=
  createTicket_initial_state_and_history demoSys 1 1 3 [] none none demoSys1 demoTicketA
    (by decide) (by rfl)

theorem createTicket_history_extends {sys : System} {c qid tdid : Nat}
    {p : List (String × String)} {subj ttl : Option Nat} {sys' : System} {tk : Ticket}
    (h : createTicket sys c qid tdid p subj ttl = Except.ok (sys', tk)) :
    ∃ r, sys'.history = sys.history ++ [r] := by
  unfold createTicket at h
  split at h
  · cases h
  · split at h
    · cases h
    split at h
    · cases h
    split at h
    · cases h
    split at h
    · cases h
    split at h
    · cases h
    split at h
    · cases h
    simp only [Except.ok.injEq, Prod.mk.injEq] at h
    obtain ⟨hsys, _⟩ := h
    subst hsys
    exact ⟨_, rfl⟩

theorem transitionTicket_history_extends {sys : System} {c tid : Nat} {n : String}
    {e : Option Nat} {sys' : System} {tk : Ticket}
    (h : transitionTicket sys c tid n e = Except.ok (sys', tk)) :
    ∃ r, sys'.history = sys.history ++ [r] := by
  unfold transitionTicket at h
  split at h
  · cases h
  · split at h
    · cases h
    split at h
    · cases h
    split at h
    · cases h
    split at h
    · cases h
    split at h
    · cases h
    simp only [Except.ok.injEq, Prod.mk.injEq] at h
    obtain ⟨hsys, _⟩ := h
    subst hsys
    exact ⟨_, rfl⟩

theorem cancelTicket_history_extends {sys : System} {c tid : Nat}
    {e : Option Nat} {sys' : System} {tk : Ticket}
    (h : cancelTicket sys c tid e = Except.ok (sys', tk)) :
    ∃ r, sys'.history = sys.history ++ [r] := by
  unfold cancelTicket at h
  split at h
  · cases h
  · split at h
    · cases h
    split at h
    · cases h
    split at h
    · cases h
    exact transitionTicket_history_extends h

theorem assignEmployee_history_eq {sys : System} {c tid eid : Nat}
    {sys' : System} {tk : Ticket}
    (h : assignEmployee sys c tid eid = Except.ok (sys', tk)) :
    sys'.history = sys.history := by
  unfold assignEmployee at h
  split at h
  · cases h
  · split at h
    · cases h
    split at h
    · cases h
    split at h
    · cases h
    split at h
    · cases h
    simp only [Except.ok.injEq, Prod.mk.injEq] at h
    obtain ⟨hsys, _⟩ := h
    subst hsys
    rfl

theorem forwardTicket_history_eq {sys : System} {c tid tqid : Nat}
    {sys' : System} {tk : Ticket}
    (h : forwardTicket sys c tid tqid = Except.ok (sys', tk)) :
    sys'.history = sys.history := by
  unfold forwardTicket at h
  split at h
  · cases h
  · split at h
    · cases h
    split at h
    · cases h
    split at h
    · cases h
    split at h
    · cases h
    split at h
    · cases h
    split at h
    · cases h
    simp only [Except.ok.injEq, Prod.mk.injEq] at h
    obtain ⟨hsys, _⟩ := h
    subst hsys
    rfl

theorem reorderTicket_history_eq {sys : System} {c tid pos : Nat}
    {sys' : System} {tk : Ticket}
    (h : reorderTicket sys c tid pos = Except.ok (sys', tk)) :
    sys'.history = sys.history := by
  unfold reorderTicket at h
  split at h
  · cases h
  · split at h
    · cases h
    split at h
    · cases h
    split at h
    · cases h
    simp only [Except.ok.injEq, Prod.mk.injEq] at h
    obtain ⟨hsys, _⟩ := h
    subst hsys
    rfl

theorem applyOp_history_extends (sys : System) (op : Op) :
    ∃ l, (applyOp sys op).history = sys.history ++ l := by
  cases op with
  | create c q td p s ttl =>
      simp only [applyOp]
      split
      · rename_i sys' tk h
        obtain ⟨r, hr⟩ := createTicket_history_extends h
        exact ⟨[r], hr⟩
      · exact ⟨[], (List.append_nil _).symm⟩
  | transition c tid n e =>
      simp only [applyOp]
      split
      · rename_i sys' tk h
        obtain ⟨r, hr⟩ := transitionTicket_history_extends h
        exact ⟨[r], hr⟩
      · exact ⟨[], (List.append_nil _).symm⟩
  | assign c tid e =>
      simp only [applyOp]
      split
      · rename_i sys' tk h
        exact ⟨[], by rw [assignEmployee_history_eq h, List.append_nil]⟩
      · exact ⟨[], (List.append_nil _).symm⟩
  | forward c tid tq =>
      simp only [applyOp]
      split
      · rename_i sys' tk h
        exact ⟨[], by rw [forwardTicket_history_eq h, List.append_nil]⟩
      · exact ⟨[], (List.append_nil _).symm⟩
  | reorder c tid pos =>
      simp only [applyOp]
      split
      · rename_i sys' tk h
        exact ⟨[], by rw [reorderTicket_history_eq h, List.append_nil]⟩
      · exact ⟨[], (List.append_nil _).symm⟩
  | cancel c tid e =>
      simp only [applyOp]
      split
      · rename_i sys' tk h
        obtain ⟨r, hr⟩ := cancelTicket_history_extends h
        exact ⟨[r], hr⟩
      · exact ⟨[], (List.append_nil _).symm⟩
  | defineType td =>
      simp only [applyOp]
      split
      · exact ⟨[], (List.append_nil _).symm⟩
      · exact ⟨[], (List.append_nil _).symm⟩

/-- C4: Transition Records are append-only — every operation leaves the
existing log as a prefix of the new one, never updating or deleting a
record — and, in a well-formed system, the records of any one ticket form a
strict total order by creation time. -/
theorem history_append_only_and_ordered (sys : System) (op : Op) (hwf : WF sys) :
    (applyOp sys op).history.take sys.history.length = sys.history ∧
    ∀ tid, ((applyOp sys op).history.filter (fun r => r.ticket_id == tid)).Pairwise
      (fun a b => a.created_at < b.created_at) := by
  constructor
  · obtain ⟨l, hl⟩ := applyOp_history_extends sys op
    rw [hl, List.take_left]
  · intro tid
    have hpw := (wf_applyOp sys op hwf).2.2.2.2.2.2
    exact List.Pairwise.sublist (List.filter_sublist _) hpw

/-- Witness for C4 on the demo system: the transition `t1` appends to the
one-record log of the demo ticket, keeping the original record first. -/
theorem history_append_only_and_ordered_witness :
    (applyOp demoSys1 (Op.transition 1 1 "t1" (some 7))).history.take
        demoSys1.history.length = demoSys1.history ∧
    ((applyOp demoSys1 (Op.transition 1 1 "t1" (some 7))).history.filter
        (fun r => r.ticket_id == 1)).Pairwise
      (fun a b => a.created_at < b.created_at) := by
  have h := history_append_only_and_ordered demoSys1
    (Op.transition 1 1 "t1" (some 7)) (by decide)
  exact ⟨h.1, h.2 1⟩

theorem apply_invalid_intro (fsm : FsmSchema) (cur n : String) (tr : Transition)
    (htr : tr ∈ fsm.transitions) (hname : tr.name = n)
    (huniq : ∀ x ∈ fsm.transitions, x.name = n → x = tr)
    (hfrom : tr.from_ ≠ cur) :
    fsm.apply cur n =
      Except.error (TransitionError.invalidTransition (validTransitionsFrom fsm cur)) := by
  have hfind : fsm.transitions.find? (fun x => x.name == n && x.from_ == cur) = none := by
    rw [List.find?_eq_none]
    intro x hx
    simp only [Bool.and_eq_true, beq_iff_eq, not_and]
    intro hxn hxf
    exact hfrom ((huniq x hx hxn) ▸ hxf)
  have hany : fsm.transitions.any (fun x => x.name == n) = true :=
    List.any_eq_true.mpr ⟨tr, htr, by simp [hname]⟩
  simp only [FsmSchema.apply, hfind, hany, if_true]

theorem transitionTicket_ok_intro (sys : System) (c tid : Nat) (n : String)
    (e : Option Nat) (t : Ticket) (q : Queue) (td : TypeDefinition)
    (fsm : FsmSchema) (next : String)
    (hot : sys.tickets.find? (fun x => x.id == tid) = some t)
    (hq : sys.queues.find? (fun x => x.id == t.queue_id) = some q)
    (htn : q.tenant_id = c)
    (hreg : registryGet sys.typeDefs c t.type_definition_id = Except.ok td)
    (hfsm : td.fsm_schema = some fsm)
    (happly : fsm.apply t.current_state n = Except.ok next) :
    transitionTicket sys c tid n e = Except.ok
      ({ sys with
          tickets := updateTicket sys.tickets tid { t with current_state := next },
          history := sys.history ++
            [{ ticket_id := tid, previous_state := some t.current_state,
               new_state := next, changed_by_employee_id := e,
               created_at := sys.clock }],
          clock := sys.clock + 1 }, { t with current_state := next }) := by
  simp only [transitionTicket, hot, hq, htn, bne_self_eq_false, Bool.false_eq_true,
    if_false, hreg, hfsm, happly]

theorem transitionTicket_error_intro {sys : System} {c tid : Nat} {n : String}
    {e : Option Nat} {t : Ticket} {q : Queue} {td : TypeDefinition}
    {fsm : FsmSchema} {err : TransitionError}
    (hot : sys.tickets.find? (fun x => x.id == tid) = some t)
    (hq : sys.queues.find? (fun x => x.id == t.queue_id) = some q)
    (htn : q.tenant_id = c)
    (hreg : registryGet sys.typeDefs c t.type_definition_id = Except.ok td)
    (hfsm : td.fsm_schema = some fsm)
    (happly : fsm.apply t.current_state n = Except.error err) :
    transitionTicket sys c tid n e =
      Except.error (LifecycleError.transitionRejected err) := by
  simp only [transitionTicket, hot, hq, htn, bne_self_eq_false, Bool.false_eq_true,
    if_false, hreg, hfsm, happly]

/-- C5: two requests of the same transition against the same ticket, executed
under the spec's per-ticket serialization (section 5: the read-validate-write
-audit unit is atomic, so a concurrent pair executes as one of its serial
orders — here both orders coincide): exactly one request succeeds and applies
the transition once, the other fails with `invalidTransition`; the final
state after both requests is the one produced by the single success, with the
prior log intact and exactly one record appended — no double application and
no lost update. -/
theorem concurrent_transition_exactly_once
    (sys : System) (c tid : Nat) (n : String) (e1 e2 : Option Nat)
    (t : Ticket) (q : Queue) (td : TypeDefinition) (fsm : FsmSchema) (tr : Transition)
    (hwf : WF sys)
    (hot : sys.tickets.find? (fun x => x.id == tid) = some t)
    (hq : sys.queues.find? (fun x => x.id == t.queue_id) = some q)
    (htn : q.tenant_id = c)
    (hreg : registryGet sys.typeDefs c t.type_definition_id = Except.ok td)
    (hfsm : td.fsm_schema = some fsm)
    (htr : tr ∈ fsm.transitions)
    (hname : tr.name = n)
    (hfrom : tr.from_ = t.current_state)
    (hexcl : tr.to_ ≠ tr.from_) :
    ∃ sys1 t1,
      transitionTicket sys c tid n e1 = Except.ok (sys1, t1) ∧
      t1.current_state = tr.to_ ∧
      transitionTicket sys1 c tid n e2 =
        Except.error (LifecycleError.transitionRejected
          (TransitionError.invalidTransition (validTransitionsFrom fsm tr.to_))) ∧
      runOps sys [Op.transition c tid n e1, Op.transition c tid n e2] = sys1 ∧
      sys1.history.take sys.history.length = sys.history ∧
      sys1.history.length = sys.history.length + 1 := by
  have hmemtd : td ∈ sys.typeDefs :=
    List.mem_of_find?_eq_some (registryGet_ok_elim hreg)
  have hv : validFsm fsm = true := by
    have hvtd := hwf.1 td hmemtd
    unfold validTypeDef at hvtd
    rw [hfsm] at hvtd
    exact hvtd
  have hnd := validFsm_names_nodup hv
  have huniq : ∀ x ∈ fsm.transitions, x.name = n → x = tr := by
    intro x hx hxn
    exact List.inj_on_of_nodup_map hnd hx htr (by rw [hxn, hname])
  have htid : t.id = tid := by
    have := List.find?_some hot
    rwa [beq_iff_eq] at this
  have happly1 : fsm.apply t.current_state n = Except.ok tr.to_ := by
    have hfind : fsm.transitions.find?
        (fun x => x.name == n && x.from_ == t.current_state) = some tr := by
      apply find?_eq_of_unique _ _ tr htr (by simp [hname, hfrom])
      intro x hx hpx
      simp only [Bool.and_eq_true, beq_iff_eq] at hpx
      exact huniq x hx hpx.1
    simp only [FsmSchema.apply, hfind]
  have hstep0 := transitionTicket_ok_intro sys c tid n e1 t q td fsm tr.to_
    hot hq htn hreg hfsm happly1
  obtain ⟨sys1, t1, hstep1, hsys1, ht1⟩ :
      ∃ sys1 t1, transitionTicket sys c tid n e1 = Except.ok (sys1, t1) ∧
        sys1 = { sys with
          tickets := updateTicket sys.tickets tid { t with current_state := tr.to_ },
          history := sys.history ++
            [{ ticket_id := tid, previous_state := some t.current_state,
               new_state := tr.to_, changed_by_employee_id := e1,
               created_at := sys.clock }],
          clock := sys.clock + 1 } ∧
        t1 = { t with current_state := tr.to_ } :=
    ⟨_, _, hstep0, rfl, rfl⟩
  have hot2 : sys1.tickets.find? (fun x => x.id == tid) = some t1 := by
    rw [hsys1, ht1]
    exact find?_updateTicket hot
      (show ({ t with current_state := tr.to_ } : Ticket).id = tid from htid)
  have hq2 : sys1.queues.find? (fun x => x.id == t1.queue_id) = some q := by
    rw [hsys1, ht1]
    exact hq
  have hreg2 : registryGet sys1.typeDefs c t1.type_definition_id = Except.ok td := by
    rw [hsys1, ht1]
    exact hreg
  have happly2 : fsm.apply t1.current_state n =
      Except.error (TransitionError.invalidTransition (validTransitionsFrom fsm tr.to_)) := by
    rw [ht1]
    refine apply_invalid_intro fsm tr.to_ n tr htr hname huniq ?_
    intro hcontra
    exact hexcl hcontra.symm
  have herr : transitionTicket sys1 c tid n e2 =
      Except.error (LifecycleError.transitionRejected
        (TransitionError.invalidTransition (validTransitionsFrom fsm tr.to_))) :=
    transitionTicket_error_intro hot2 hq2 htn hreg2 hfsm happly2
  refine ⟨sys1, t1, hstep1, by rw [ht1], herr, ?_, ?_, ?_⟩
  · simp only [runOps, List.foldl_cons, List.foldl_nil, applyOp, hstep1, herr]
  · rw [hsys1]
    rw [List.take_left]
  · rw [hsys1]
    simp

/-- Witness for C5 on the demo system: of two identical `t1` requests against
the demo ticket in state `A`, the first succeeds into `B`, the second fails
with `invalidTransition`, and the final system is the one after the single
success with exactly one appended record. -/
theorem concurrent_transition_exactly_once_witness :
    ∃ sys1 t1,
      transitionTicket demoSys1 1 1 "t1" (some 7) = Except.ok (sys1, t1) ∧
      t1.current_state = "B" ∧
      transitionTicket sys1 1 1 "t1" none =
        Except.error (LifecycleError.transitionRejected
          (TransitionError.invalidTransition (validTransitionsFrom exampleFsm "B"))) ∧
      runOps demoSys1 [Op.transition 1 1 "t1" (some 7), Op.transition 1 1 "t1" none] = sys1 ∧
      sys1.history.take demoSys1.history.length = demoSys1.history ∧
      sys1.history.length = demoSys1.history.length + 1 :=
  concurrent_transition_exactly_once demoSys1 1 1 "t1" (some 7) none demoTicketA demoQueue
    demoTypeDef exampleFsm ⟨"t1", "A", "B"⟩ (by decide) (by decide) (by decide) rfl rfl rfl
    (by decide) rfl rfl (by decide)

/-- C9: a successful `ForwardTicket` to a different queue removes the ticket
from the source queue's membership listing, appends it at the tail of the
target queue's listing, and changes nothing on the ticket record except its
queue ownership — in particular `current_state` is unchanged. -/
theorem forwardTicket_frame (sys : System) (c tid tqid : Nat)
    (sys' : System) (t' t : Ticket)
    (hot : sys.tickets.find? (fun x => x.id == tid) = some t)
    (hne : t.queue_id ≠ tqid)
    (h : forwardTicket sys c tid tqid = Except.ok (sys', t')) :
    t' = { t with queue_id := tqid } ∧
    t'.current_state = t.current_state ∧
    tid ∉ getAssoc sys'.membership t.queue_id ∧
    getAssoc sys'.membership tqid = getAssoc sys.membership tqid ++ [tid] := by
  unfold forwardTicket at h
  split at h
  · cases h
  · rename_i t0 hot0
    have ht0 : t0 = t := by
      have := hot0.symm.trans hot
      exact Option.some.injEq _ _ ▸ this
    subst ht0
    split at h
    · cases h
    rename_i q hq
    split at h
    · cases h
    split at h
    · cases h
    rename_i tq htq
    split at h
    · cases h
    split at h
    · cases h
    split at h
    · cases h
    simp only [Except.ok.injEq, Prod.mk.injEq] at h
    obtain ⟨hsys, htk⟩ := h
    subst hsys
    refine ⟨htk.symm, by rw [← htk], ?_, ?_⟩
    · rw [show ({ sys with
          tickets := updateTicket sys.tickets tid { t0 with queue_id := tqid },
          membership := setAssoc
            (setAssoc sys.membership t0.queue_id
              ((getAssoc sys.membership t0.queue_id).filter (fun x => x != tid)))
            tqid
            (getAssoc
              (setAssoc sys.membership t0.queue_id
                ((getAssoc sys.membership t0.queue_id).filter (fun x => x != tid)))
              tqid ++ [tid]),
          clock := sys.clock + 1 } : System).membership = setAssoc
            (setAssoc sys.membership t0.queue_id
              ((getAssoc sys.membership t0.queue_id).filter (fun x => x != tid)))
            tqid
            (getAssoc
              (setAssoc sys.membership t0.queue_id
                ((getAssoc sys.membership t0.queue_id).filter (fun x => x != tid)))
              tqid ++ [tid]) from rfl]
      rw [getAssoc_setAssoc_ne _ _ _ _ hne]
      rw [getAssoc_setAssoc_same]
      intro hmem
      rw [List.mem_filter] at hmem
      have := hmem.2
      simp at this
    · rw [show ({ sys with
          tickets := updateTicket sys.tickets tid { t0 with queue_id := tqid },
          membership := setAssoc
            (setAssoc sys.membership t0.queue_id
              ((getAssoc sys.membership t0.queue_id).filter (fun x => x != tid)))
            tqid
            (getAssoc
              (setAssoc sys.membership t0.queue_id
                ((getAssoc sys.membership t0.queue_id).filter (fun x => x != tid)))
              tqid ++ [tid]),
          clock := sys.clock + 1 } : System).membership = setAssoc
            (setAssoc sys.membership t0.queue_id
              ((getAssoc sys.membership t0.queue_id).filter (fun x => x != tid)))
            tqid
            (getAssoc
              (setAssoc sys.membership t0.queue_id
                ((getAssoc sys.membership t0.queue_id).filter (fun x => x != tid)))
              tqid ++ [tid]) from rfl]
      rw [getAssoc_setAssoc_same]
      rw [getAssoc_setAssoc_ne _ _ _ _ (Ne.symm hne)]

/-- Demo fixture: `demoTicketA` moved to queue 2. -/
def demoTicketAQ2 : Ticket := { demoTicketA with queue_id := 2 }

/-- Demo fixture: `demoSys1` after forwarding the ticket to queue 2. -/
def demoSys1F : System :=
  { demoSys1 with
    tickets := [demoTicketAQ2], membership := [(1, []), (2, [1])], clock := 2 }

/-- Witness for C9 on the demo system: forwarding the demo ticket from queue
1 to queue 2 empties queue 1's listing, appends to queue 2's tail, and keeps
the ticket identical except for its queue. -/
theorem forwardTicket_frame_witness :
    demoTicketAQ2 = { demoTicketA with queue_id := 2 } ∧
    demoTicketAQ2.current_state = demoTicketA.current_state ∧
    1 ∉ getAssoc demoSys1F.membership demoTicketA.queue_id ∧
    getAssoc demoSys1F.membership 2 = getAssoc demoSys1.membership 2 ++ [1] :=
  forwardTicket_frame demoSys1 1 1 2 demoSys1F demoTicketAQ2 demoTicketA
    (by decide) (by decide) (by rfl)

/-- Row of the `Tenant` table (schema.sql lines 42-56) as the monitor view
consults it; `is_active` is a nullable boolean (`DEFAULT true`). -/
structure TenantRow where
  id : Nat
  extid : Nat
  name : String
  is_active : Option Bool
deriving Repr, DecidableEq

/-- Row of the `Queue` table (schema.sql lines 89-103) as the monitor view
consults it. -/
structure QueueRow where
  id : Nat
  extid : Nat
  tenant_id : Nat
  name : String
  is_active : Option Bool
  display_order : Option Nat
deriving Repr, DecidableEq

/-- Row of the `TypeDefinition` table as the monitor view consults it. -/
structure TypeDefRow where
  id : Nat
  type_code : String
  type_name : String
deriving Repr, DecidableEq

/-- Row of the `Subject` table (schema.sql lines 113-123); name fields are
nullable. -/
structure SubjectRow where
  uid : Nat
  fname : Option String
  lname : Option String
deriving Repr, DecidableEq

/-- Row of the `Ticket` table as the monitor view consults it. -/
structure TicketRow where
  id : Nat
  extid : Nat
  queue_id : Nat
  type_definition_id : Nat
  current_state : String
  subject_id : Option Nat
  estimated_wait_minutes : Option Nat
  created_at : Nat
  started_at : Option Nat
  ready_at : Option Nat
  expires_at : Option Nat
  custom_data : Option String
deriving Repr, DecidableEq

/-- Row of the `TicketItem` table as the monitor view consults it. -/
structure TicketItemRow where
  id : Nat
  ticket_id : Nat
  external_item_name : Option String
deriving Repr, DecidableEq

/-- The tables the `v_monitor_tickets` view reads. -/
structure Db where
  tenants : List TenantRow
  queues : List QueueRow
  typeDefs : List TypeDefRow
  subjects : List SubjectRow
  tickets : List TicketRow
  ticketItems : List TicketItemRow
deriving Repr, DecidableEq

/-- Output row of `v_monitor_tickets` (schema.sql lines 337-374). -/
structure MonitorRow where
  ticket_extid : Nat
  ticket_type_code : String
  ticket_type_name : String
  ticket_state_code : String
  estimated_wait_minutes : Option Nat
  line_extid : Nat
  line_name : String
  tenant_id : Nat
  tenant_name : String
  subject_display_name : Option String
  created_at : Nat
  started_at : Option Nat
  ready_at : Option Nat
  expires_at : Option Nat
  custom_data : Option String
  item_count : Nat
  item_names : Option (List String)
deriving Repr, DecidableEq

/-- The view's `CASE WHEN s.fname IS NOT NULL THEN s.fname || ' ' ||
LEFT(s.lname, 1) || '.' ELSE 'Guest' END` (schema.sql lines 348-351); SQL
string concatenation with NULL yields NULL. -/
def subjectDisplayName (s : Option SubjectRow) : Option String :=
  match s with
  | none => some "Guest"
  | some subj =>
      match subj.fname with
      | none => some "Guest"
      | some f =>
          match subj.lname with
          | some l => some (f ++ " " ++ l.take 1 ++ ".")
          | none => none

/-- The view's `LEFT JOIN Subject s ON t.subject_id = s.uid`: the matched
subject rows, or a single null row when the key is null or unmatched. -/
def leftJoinSubject (subjects : List SubjectRow) (sid : Option Nat) :
    List (Option SubjectRow) :=
  match sid with
  | none => [none]
  | some i =>
      if (subjects.filter (fun s => s.uid == i)).isEmpty then [none]
      else (subjects.filter (fun s => s.uid == i)).map some

/-- One output row for a joined (ticket, queue, tenant, type, subject)
combination, with the per-ticket item aggregates `COUNT(ti.id)` and
`ARRAY_AGG(ti.external_item_name) FILTER (WHERE ... IS NOT NULL)` (NULL when
no row qualifies). -/
def mkMonitorRow (t : TicketRow) (l : QueueRow) (tn : TenantRow)
    (td : TypeDefRow) (s : Option SubjectRow) (items : List TicketItemRow) :
    MonitorRow :=
  { ticket_extid := t.extid
    ticket_type_code := td.type_code
    ticket_type_name := td.type_name
    ticket_state_code := t.current_state
    estimated_wait_minutes := t.estimated_wait_minutes
    line_extid := l.extid
    line_name := l.name
    tenant_id := l.tenant_id
    tenant_name := tn.name
    subject_display_name := subjectDisplayName s
    created_at := t.created_at
    started_at := t.started_at
    ready_at := t.ready_at
    expires_at := t.expires_at
    custom_data := t.custom_data
    item_count := items.length
    item_names :=
      if (items.filterMap TicketItemRow.external_item_name).isEmpty then none
      else some (items.filterMap TicketItemRow.external_item_name) }

/-- Strict "comes before" for `NULLS LAST` ordering of a nullable column. -/
def optBeforeNullsLast (a b : Option Nat) : Bool :=
  match a, b with
  | none, _ => false
  | some _, none => true
  | some x, some y => x < y

/-- Sort key of the view's `ORDER BY l.tenant_id, l.display_order NULLS
LAST, t.created_at ASC`. -/
def monitorKeyLe (a b : (Nat × Option Nat × Nat) × MonitorRow) : Bool :=
  a.1.1 < b.1.1 ||
    (a.1.1 == b.1.1 &&
      (optBeforeNullsLast a.1.2.1 b.1.2.1 ||
        (a.1.2.1 == b.1.2.1 && a.1.2.2 ≤ b.1.2.2)))

/-- Insertion into a sorted list. -/
def insSorted {α : Type} (le : α → α → Bool) (x : α) : List α → List α
  | [] => [x]
  | y :: ys => if le x y then x :: y :: ys else y :: insSorted le x ys

/-- Insertion sort (the surrounding proofs use only that it permutes). -/
def sortByLe {α : Type} (le : α → α → Bool) : List α → List α
  | [] => []
  | x :: xs => insSorted le x (sortByLe le xs)

theorem mem_insSorted {α : Type} (le : α → α → Bool) (x a : α) (l : List α) :
    a ∈ insSorted le x l ↔ a = x ∨ a ∈ l := by
  induction l with
  | nil => simp [insSorted]
  | cons y ys ih =>
      unfold insSorted
      by_cases hle : le x y = true
      · rw [if_pos hle]
        simp
      · rw [if_neg hle]
        simp only [List.mem_cons, ih]
        tauto

theorem mem_sortByLe {α : Type} (le : α → α → Bool) (a : α) (l : List α) :
    a ∈ sortByLe le l ↔ a ∈ l := by
  induction l with
  | nil => simp [sortByLe]
  | cons x xs ih =>
      unfold sortByLe
      rw [mem_insSorted, ih]
      simp

/-- The `v_monitor_tickets` view (schema.sql lines 337-374), translated
clause by clause: inner joins of Ticket with Queue, Tenant and
TypeDefinition, left joins with Subject and TicketItem (the latter
aggregated per group), the filter `WHERE l.is_active = true AND tn.is_active
= true`, one output row per group of `GROUP BY t.id, ...`, ordered by
`l.tenant_id, l.display_order NULLS LAST, t.created_at`. -/
def v_monitor_tickets (db : Db) : List MonitorRow :=
  (sortByLe monitorKeyLe
    (db.tickets.flatMap fun t =>
      (db.queues.filter fun l => l.id == t.queue_id).flatMap fun l =>
        (db.tenants.filter fun tn => tn.id == l.tenant_id).flatMap fun tn =>
          (db.typeDefs.filter fun td => td.id == t.type_definition_id).flatMap fun td =>
            if l.is_active == some true && tn.is_active == some true then
              (leftJoinSubject db.subjects t.subject_id).map fun s =>
                ((l.tenant_id, l.display_order, t.created_at),
                  mkMonitorRow t l tn td s
                    (db.ticketItems.filter fun ti => ti.ticket_id == t.id))
            else [])).map Prod.snd

/-- C10: every row the monitor view produces comes from a stored ticket
whose owning queue is active and whose owning tenant is active; tickets in
deactivated queues or tenants are excluded (while remaining stored in
`db.tickets`). -/
theorem v_monitor_tickets_only_active (db : Db) (row : MonitorRow)
    (h : row ∈ v_monitor_tickets db) :
    ∃ t ∈ db.tickets, ∃ l ∈ db.queues, ∃ tn ∈ db.tenants,
      t.queue_id = l.id ∧ l.tenant_id = tn.id ∧ row.ticket_extid = t.extid ∧
      l.is_active = some true ∧ tn.is_active = some true := by
  unfold v_monitor_tickets at h
  rw [List.mem_map] at h
  obtain ⟨pair, hpair, hrow⟩ := h
  rw [mem_sortByLe] at hpair
  rw [List.mem_flatMap] at hpair
  obtain ⟨t, ht, hpair⟩ := hpair
  rw [List.mem_flatMap] at hpair
  obtain ⟨l, hl, hpair⟩ := hpair
  rw [List.mem_filter] at hl
  rw [List.mem_flatMap] at hpair
  obtain ⟨tn, htn, hpair⟩ := hpair
  rw [List.mem_filter] at htn
  rw [List.mem_flatMap] at hpair
  obtain ⟨td, htd, hpair⟩ := hpair
  by_cases hcond : (l.is_active == some true && tn.is_active == some true) = true
  · rw [if_pos hcond] at hpair
    rw [List.mem_map] at hpair
    obtain ⟨s, hs, hpairEq⟩ := hpair
    simp only [Bool.and_eq_true, beq_iff_eq] at hcond
    have hq : t.queue_id = l.id := by
      have := hl.2
      rwa [beq_iff_eq, eq_comm] at this
    have htenant : l.tenant_id = tn.id := by
      have := htn.2
      rwa [beq_iff_eq, eq_comm] at this
    refine ⟨t, ht, l, hl.1, tn, htn.1, hq, htenant, ?_, hcond.1, hcond.2⟩
    rw [← hrow, ← hpairEq]
    exact rfl
  · rw [if_neg hcond] at hpair
    cases hpair

/-- Demo fixture: a one-ticket database with an active queue and tenant. -/
def demoDb : Db :=
  { tenants := [{ id := 1, extid := 11, name := "Downtown Seattle Coffee",
                  is_active := some true }]
    queues := [{ id := 1, extid := 21, tenant_id := 1, name := "Main Queue",
                 is_active := some true, display_order := some 1 }]
    typeDefs := [{ id := 3, type_code := "food_order", type_name := "Food Order" }]
    subjects := []
    tickets := [{ id := 1, extid := 31, queue_id := 1, type_definition_id := 3,
                  current_state := "received", subject_id := none,
                  estimated_wait_minutes := some 5, created_at := 0,
                  started_at := none, ready_at := none, expires_at := none,
                  custom_data := none }]
    ticketItems := [] }

/-- Demo fixture: the single row `v_monitor_tickets` produces on `demoDb`. -/
def demoMonitorRow : MonitorRow :=
  { ticket_extid := 31, ticket_type_code := "food_order",
    ticket_type_name := "Food Order", ticket_state_code := "received",
    estimated_wait_minutes := some 5, line_extid := 21,
    line_name := "Main Queue", tenant_id := 1,
    tenant_name := "Downtown Seattle Coffee",
    subject_display_name := some "Guest", created_at := 0, started_at := none,
    ready_at := none, expires_at := none, custom_data := none,
    item_count := 0, item_names := none }

/-- Witness for C10: the demo row is produced, and the theorem recovers its
active queue and tenant. -/
theorem v_monitor_tickets_only_active_witness :
    ∃ t ∈ demoDb.tickets, ∃ l ∈ demoDb.queues, ∃ tn ∈ demoDb.tenants,
      t.queue_id = l.id ∧ l.tenant_id = tn.id ∧
      demoMonitorRow.ticket_extid = t.extid ∧
      l.is_active = some true ∧ tn.is_active = some true :=
  v_monitor_tickets_only_active demoDb demoMonitorRow (by decide)

end VirtualQ
